import Mathlib

/-!
Verification of the vella-backend Page Store core.

The embedding follows the TypeScript source:
* `cleanUrl` embeds `src/utils/url.ts` (the revision that also replaces
  every `.` by `-`, which the spec adopts as the canonical contract).
  JavaScript strings are sequences of characters, so the three `replace`
  passes are modelled on `List Char` with `String` at the boundary.
* `IPage`, `Store` and the operations embed `PageController`
  (`getAll`, `getPageById`, `createPage`, `updatePage`, `updatePageUrl`,
  `deletePage`) together with the `pageSchema` declaration
  (`_id : required`, `page : required`, `description : optional`).
  The MongoDB/mongoose persistence layer itself is not part of the
  repository; its behaviour (unique `_id`, schema validation on `create`,
  transactional rollback) is modelled from the spec where noted.
-/

namespace Vella

/-! ## Key Normalizer — `cleanUrl` from `src/utils/url.ts` -/

/-- Embeds `url.replace(/^https?:\/\//, '')` on the character list: strip
one leading `http://` or `https://` (case-sensitive, only at the very
start; the regex has no `g` flag, so at most one occurrence is removed). -/
def stripSchemeL (s : List Char) : List Char :=
  if "http://".data.isPrefixOf s then s.drop 7
  else if "https://".data.isPrefixOf s then s.drop 8
  else s

/-- Embeds `cleanedUrl.replace(/^\/|\/$/g, '')`: the anchored alternation
removes a single leading `/` and a single trailing `/`, if present. -/
def stripOuterSlashesL (s : List Char) : List Char :=
  let t := if s.head? = some '/' then s.drop 1 else s
  if t.getLast? = some '/' then t.dropLast else t

/-- Character substitution used by `cleanedUrl.replace(/\./g, '-')`. -/
def dotToDash (c : Char) : Char :=
  if c = '.' then '-' else c

/-- Embeds `cleanedUrl.replace(/\./g, '-')`: replace every `.` by `-`. -/
def replaceDotsL (s : List Char) : List Char :=
  s.map dotToDash

/-- Embeds `cleanUrl` from `src/utils/url.ts` (spec: `normalize`): strip a
leading scheme, strip single outer slashes, then replace dots by dashes,
in that order. -/
def cleanUrl (url : String) : String :=
  ⟨replaceDotsL (stripOuterSlashesL (stripSchemeL url.data))⟩

/-! Basic facts about the normalizer. -/

theorem dotToDash_idem (c : Char) : dotToDash (dotToDash c) = dotToDash c := by
  by_cases h : c = '.'
  · simp [dotToDash, h]
  · simp [dotToDash, h]

theorem replaceDotsL_idem (s : List Char) :
    replaceDotsL (replaceDotsL s) = replaceDotsL s := by
  simp only [replaceDotsL, List.map_map]
  exact List.map_congr_left (fun c _ => dotToDash_idem c)

theorem stripSchemeL_eq_of_no_scheme (s : List Char)
    (h1 : "http://".data.isPrefixOf s = false)
    (h2 : "https://".data.isPrefixOf s = false) :
    stripSchemeL s = s := by
  simp [stripSchemeL, h1, h2]

theorem stripOuterSlashesL_eq_of_not_outer (s : List Char)
    (h1 : s.head? ≠ some '/') (h2 : s.getLast? ≠ some '/') :
    stripOuterSlashesL s = s := by
  simp [stripOuterSlashesL, h1, h2]

theorem cleanUrl_data (url : String) :
    (cleanUrl url).data = replaceDotsL (stripOuterSlashesL (stripSchemeL url.data)) :=
  rfl

/-! ## Data model — `PageModel.ts` (`pageSchema`, interface `IPage`) -/

/-- Embeds the `IPage` document: `_id` is the page URL used as the primary
key, `page` is the title (required), `description` is optional. -/
structure IPage where
  _id : String
  page : String
  description : Option String
deriving DecidableEq, Repr

/-- The `pages` collection: the list of documents currently persisted. -/
abbrev Store := List IPage

/-- Error kinds the spec distinguishes for the Page Store. In the source
these surface as a mongoose `ValidationError` (InvalidInput), a MongoDB
duplicate-`_id` write error (DuplicateKey), and the `Error` thrown by
`updatePageUrl` when the old URL is absent (NotFound). -/
inductive PageError where
  | NotFound
  | DuplicateKey
  | InvalidInput
deriving DecidableEq, Repr

instance {ε α : Type} [DecidableEq ε] [DecidableEq α] :
    DecidableEq (Except ε α) := fun x y =>
  match x, y with
  | .ok a, .ok b =>
    if h : a = b then .isTrue (by rw [h]) else .isFalse (by simp [h])
  | .error a, .error b =>
    if h : a = b then .isTrue (by rw [h]) else .isFalse (by simp [h])
  | .ok _, .error _ => .isFalse (by simp)
  | .error _, .ok _ => .isFalse (by simp)

/-- Embeds `PageModel.findById(k)`: the document whose `_id` equals `k`,
if any (MongoDB `_id` lookup). -/
def findById (s : Store) (k : String) : Option IPage :=
  s.find? (fun r => r._id == k)

/-- Modelled from the spec: `PageModel.create(doc)` of the mongoose layer
(not under src/). Schema validation runs before the write — `pageSchema`
marks `_id` and `page` as `required`, which for mongoose strings rejects
the empty string (spec: `InvalidInput` if key or title is empty) — and
the write itself enforces `_id` uniqueness (spec: `DuplicateKey` if the
key is already occupied). On failure nothing is written. -/
def createDoc (s : Store) (r : IPage) : Except PageError Store :=
  if r._id = "" ∨ r.page = "" then .error .InvalidInput
  else if (findById s r._id).isSome then .error .DuplicateKey
  else .ok (s ++ [r])

/-- Modelled from the spec: `PageModel.findByIdAndDelete(k)` of the
mongoose layer (not under src/): remove the document with `_id = k`, if
any, returning the removed document (`null` → `none` when absent). -/
def findByIdAndDelete (s : Store) (k : String) : Option IPage × Store :=
  match findById s k with
  | none => (none, s)
  | some r => (some r, s.eraseP (fun x => x._id == k))

/-- Replace the first document whose `_id` is `k` by `r'` (the in-place
write performed by an update on `_id = k`). -/
def replaceById : Store → String → IPage → Store
  | [], _, _ => []
  | x :: xs, k, r' =>
    if x._id == k then r' :: xs else x :: replaceById xs k r'

/-- Modelled from the spec: `PageModel.findByIdAndUpdate(k, {page,
description}, {new: true})` of the mongoose layer (not under src/):
replace the non-key fields of the document with `_id = k` in place and
return the updated document, or `none` when no such document exists (the
spec's update contract: a miss is a non-error `absent`). -/
def findByIdAndUpdate (s : Store) (k : String) (page : String)
    (description : Option String) : Option IPage × Store :=
  match findById s k with
  | none => (none, s)
  | some _ =>
    let r' : IPage := ⟨k, page, description⟩
    (some r', replaceById s k r')

/-! ## Operations — `PageController.ts` -/

/-- Embeds `PageController.getAll`: fetch all documents. -/
def getAll (s : Store) : List IPage := s

/-- Embeds `PageController.getPageById` (spec: `getByKey`). -/
def getPageById (s : Store) (pageId : String) : Option IPage :=
  findById s pageId

/-- Embeds `PageController.createPage(page, url, description)` (spec:
`insert`): `PageModel.create({page, _id: url, description})`, returning
the new document or the error thrown by the store layer. -/
def createPage (s : Store) (page : String) (url : String)
    (description : Option String) : Except PageError (IPage × Store) :=
  match createDoc s ⟨url, page, description⟩ with
  | .error e => .error e
  | .ok s' => .ok (⟨url, page, description⟩, s')

/-- Embeds `PageController.updatePage(pageId, page, description)` (spec:
`update`): `findByIdAndUpdate` leaving the `_id` unchanged. -/
def updatePage (s : Store) (pageId : String) (page : String)
    (description : Option String) : Option IPage × Store :=
  findByIdAndUpdate s pageId page description

/-- Embeds `PageController.updatePageUrl(oldUrl, newPageData)` (spec:
`renameKey`): inside one transactional session, delete the document at
`oldUrl` (failing with `NotFound` when absent — the thrown
`Page with URL ... does not exist.`), then `create` the new document; on
any failure the transaction is aborted, so no intermediate state is ever
persisted — an error outcome carries no store and the caller still
observes the original store (see `storeAfter`). -/
def updatePageUrl (s : Store) (oldUrl : String) (newPage : String)
    (newUrl : String) (newDescription : Option String) :
    Except PageError (IPage × Store) :=
  match findByIdAndDelete s oldUrl with
  | (none, _) => .error .NotFound
  | (some _, s1) =>
    match createDoc s1 ⟨newUrl, newPage, newDescription⟩ with
    | .error e => .error e
    | .ok s2 => .ok (⟨newUrl, newPage, newDescription⟩, s2)

/-- Embeds `PageController.deletePage(pageId)` (spec: `delete`). -/
def deletePage (s : Store) (pageId : String) : Option IPage × Store :=
  findByIdAndDelete s pageId

/-- The store an external observer sees after a fallible operation ran
against `s`: the committed store on success, and `s` itself on failure
(a failed `create` writes nothing; a failed `updatePageUrl` aborts its
transaction, rolling every step back). -/
def storeAfter {α : Type} (s : Store) (r : Except PageError (α × Store)) : Store :=
  match r with
  | .ok (_, s') => s'
  | .error _ => s

/-- The keys currently in use: the `_id` of every document. -/
def storeKeys (s : Store) : List String :=
  s.map (fun r => r._id)

/-- The store-level uniqueness invariant: at most one document per key. -/
abbrev UniqueKeys (s : Store) : Prop :=
  (storeKeys s).Nodup

/-- Every persisted document passed `pageSchema` validation: nonempty
`_id` and nonempty `page`. -/
abbrev ValidStore (s : Store) : Prop :=
  ∀ r ∈ s, r._id ≠ "" ∧ r.page ≠ ""

/-! ## Supporting lemmas about lookup, erase and replace -/

theorem findById_eq_some {s : Store} {k : String} {r : IPage}
    (h : findById s k = some r) : r._id = k ∧ r ∈ s := by
  refine ⟨?_, List.mem_of_find?_eq_some h⟩
  have := List.find?_some h
  simpa using this

theorem findById_eraseP_ne (s : Store) (k k' : String) (h : k' ≠ k) :
    findById (s.eraseP (fun x => x._id == k)) k' = findById s k' := by
  induction s with
  | nil => rfl
  | cons x xs ih =>
    simp only [findById] at ih ⊢
    rw [List.eraseP_cons]
    by_cases hx : x._id = k
    · have hb : (x._id == k) = true := beq_iff_eq.mpr hx
      have hq : (x._id == k') = false :=
        beq_eq_false_iff_ne.mpr (by rw [hx]; exact fun e => h e.symm)
      rw [hb, cond_true, List.find?_cons, hq]
    · have hb : (x._id == k) = false := beq_eq_false_iff_ne.mpr hx
      rw [hb, cond_false, List.find?_cons, List.find?_cons]
      cases hq : (x._id == k')
      · simpa [hq] using ih
      · simp [hq]

theorem findById_eraseP_self (s : Store) (k : String) (h : UniqueKeys s) :
    findById (s.eraseP (fun x => x._id == k)) k = none := by
  induction s with
  | nil => rfl
  | cons x xs ih =>
    simp only [UniqueKeys, storeKeys, List.map_cons, List.nodup_cons] at h
    simp only [findById] at ih ⊢
    rw [List.eraseP_cons]
    by_cases hx : x._id = k
    · rw [(beq_iff_eq.mpr hx : (x._id == k) = true), cond_true, List.find?_eq_none]
      intro y hy hc
      have hyk : y._id = k := beq_iff_eq.mp hc
      exact h.1 (hx ▸ hyk ▸ List.mem_map_of_mem (fun r => r._id) hy)
    · rw [(beq_eq_false_iff_ne.mpr hx : (x._id == k) = false), cond_false,
        List.find?_cons, (beq_eq_false_iff_ne.mpr hx : (x._id == k) = false)]
      exact ih h.2

theorem storeKeys_replaceById (s : Store) (k : String) (r' : IPage)
    (hr : r'._id = k) : storeKeys (replaceById s k r') = storeKeys s := by
  induction s with
  | nil => rfl
  | cons x xs ih =>
    rw [replaceById]
    by_cases hx : x._id = k
    · rw [if_pos (beq_iff_eq.mpr hx)]
      simp [storeKeys, hr, hx]
    · rw [if_neg (by simpa using hx)]
      simp only [storeKeys, List.map_cons] at ih ⊢
      rw [ih]

theorem findById_replaceById_ne (s : Store) (k k' : String) (r' : IPage)
    (hr : r'._id = k) (h : k' ≠ k) :
    findById (replaceById s k r') k' = findById s k' := by
  induction s with
  | nil => rfl
  | cons x xs ih =>
    simp only [findById] at ih ⊢
    rw [replaceById]
    by_cases hx : x._id = k
    · rw [if_pos (beq_iff_eq.mpr hx), List.find?_cons, List.find?_cons,
        (beq_eq_false_iff_ne.mpr (by rw [hr]; exact fun e => h e.symm) : (r'._id == k') = false),
        (beq_eq_false_iff_ne.mpr (by rw [hx]; exact fun e => h e.symm) : (x._id == k') = false)]
    · rw [if_neg (by simpa using hx), List.find?_cons, List.find?_cons]
      cases hq : (x._id == k')
      · simpa [hq] using ih
      · simp [hq]

/-! ## Claims -/

/-- C5: `cleanUrl` applies, in order, scheme stripping, outer-slash
stripping and dot-to-dash replacement, and satisfies the four spec
examples. -/
theorem C5_cleanUrl_pipeline_and_examples :
    (∀ s : String, cleanUrl s = ⟨replaceDotsL (stripOuterSlashesL (stripSchemeL s.data))⟩)
    ∧ cleanUrl "https://example.com/" = "example-com"
    ∧ cleanUrl "/foo/" = "foo"
    ∧ cleanUrl "a.b.c" = "a-b-c"
    ∧ cleanUrl "" = "" :=
  ⟨fun _ => rfl, by decide, by decide, by decide, by decide⟩

/-- C4 counterexample: normalization is not idempotent. Each pass strips
only a single leading slash, so `cleanUrl "//a" = "/a"` while a second
application yields `"a"`. -/
theorem C4_cleanUrl_not_idempotent_cx :
    cleanUrl "//a" = "/a" ∧ cleanUrl (cleanUrl "//a") = "a" ∧
    cleanUrl (cleanUrl "//a") ≠ cleanUrl "//a" :=
  ⟨by decide, by decide, by decide⟩

/-- C4 (amended): normalization is idempotent on every string whose
normal form does not itself start with `http://` or `https://`, start
with `/`, or end with `/` — i.e. whenever one pass already reached a
fixed point of the outer stripping; the dot-to-dash pass is always
idempotent. -/
theorem C4_cleanUrl_idempotent_of_stripped (s : String)
    (h1 : "http://".data.isPrefixOf (cleanUrl s).data = false)
    (h2 : "https://".data.isPrefixOf (cleanUrl s).data = false)
    (h3 : (cleanUrl s).data.head? ≠ some '/')
    (h4 : (cleanUrl s).data.getLast? ≠ some '/') :
    cleanUrl (cleanUrl s) = cleanUrl s := by
  show (⟨replaceDotsL (stripOuterSlashesL (stripSchemeL (cleanUrl s).data))⟩ : String) = cleanUrl s
  rw [stripSchemeL_eq_of_no_scheme _ h1 h2, stripOuterSlashesL_eq_of_not_outer _ h3 h4]
  have hd : replaceDotsL (cleanUrl s).data = (cleanUrl s).data := by
    rw [cleanUrl_data, replaceDotsL_idem]
  rw [hd]

/-- Witness for the amended C4 at a concrete input. -/
theorem C4_witness :
    cleanUrl (cleanUrl "https://example.com/") = cleanUrl "https://example.com/" :=
  C4_cleanUrl_idempotent_of_stripped "https://example.com/"
    (by decide) (by decide) (by decide) (by decide)

/-- C3: for every store with no record at `oldUrl`, `updatePageUrl`
(spec: `renameKey`) fails with `NotFound` and the observable store is
unchanged — nothing is created. -/
theorem C3_rename_missing_source (s : Store) (oldUrl newPage newUrl : String)
    (d : Option String) (h : getPageById s oldUrl = none) :
    updatePageUrl s oldUrl newPage newUrl d = .error .NotFound ∧
    storeAfter s (updatePageUrl s oldUrl newPage newUrl d) = s := by
  have hd : findByIdAndDelete s oldUrl = (none, s) := by
    unfold findByIdAndDelete
    rw [show findById s oldUrl = none from h]
  constructor <;> simp [updatePageUrl, hd, storeAfter]

/-- Witness for C3 at a concrete input. -/
theorem C3_witness :
    updatePageUrl [] "x" "t" "y" none = .error .NotFound ∧
    storeAfter [] (updatePageUrl [] "x" "t" "y" none) = [] :=
  C3_rename_missing_source [] "x" "t" "y" none (by decide)

/-- C7: `createPage` (spec: `insert`) fails with `InvalidInput` whenever
the key or the title is the empty string, and no record is created. -/
theorem C7_insert_invalid (s : Store) (key title : String) (d : Option String)
    (h : key = "" ∨ title = "") :
    createPage s title key d = .error .InvalidInput ∧
    storeAfter s (createPage s title key d) = s := by
  have hc : createDoc s ⟨key, title, d⟩ = .error .InvalidInput := by
    unfold createDoc
    rw [if_pos h]
  constructor <;> simp [createPage, hc, storeAfter]

/-- Witness for C7 at a concrete input. -/
theorem C7_witness :
    createPage [] "t" "" none = .error .InvalidInput ∧
    storeAfter [] (createPage [] "t" "" none) = [] :=
  C7_insert_invalid [] "" "t" none (Or.inl rfl)


/-- C1 (amended): for a valid store holding records at both `oldUrl` and
`newUrl` (distinct), and a nonempty new title, `updatePageUrl` (spec:
`renameKey`) fails with `DuplicateKey` and the observable store is the
original one: the delete inside the transaction is rolled back, so both
records are unchanged. -/
theorem C1_rename_conflict_rollback (s : Store) (oldUrl newUrl newPage : String)
    (d : Option String) (r r2 : IPage)
    (hv : ValidStore s)
    (ho : getPageById s oldUrl = some r)
    (hn : getPageById s newUrl = some r2)
    (hne : newUrl ≠ oldUrl)
    (hp : newPage ≠ "") :
    updatePageUrl s oldUrl newPage newUrl d = .error .DuplicateKey ∧
    storeAfter s (updatePageUrl s oldUrl newPage newUrl d) = s ∧
    getPageById (storeAfter s (updatePageUrl s oldUrl newPage newUrl d)) oldUrl = some r ∧
    getPageById (storeAfter s (updatePageUrl s oldUrl newPage newUrl d)) newUrl = some r2 := by
  have hfo : findById s oldUrl = some r := ho
  have hfn : findById s newUrl = some r2 := hn
  obtain ⟨hr2id, hr2mem⟩ := findById_eq_some hfn
  have hnu : newUrl ≠ "" := by rw [← hr2id]; exact (hv r2 hr2mem).1
  have h1 : findById (s.eraseP (fun x => x._id == oldUrl)) newUrl = some r2 := by
    rw [findById_eraseP_ne s oldUrl newUrl hne]; exact hfn
  have hcd : createDoc (s.eraseP (fun x => x._id == oldUrl)) ⟨newUrl, newPage, d⟩
      = .error .DuplicateKey := by
    unfold createDoc
    rw [if_neg (by simp [hnu, hp]), if_pos (by rw [h1]; rfl)]
  have hdel : findByIdAndDelete s oldUrl = (some r, s.eraseP (fun x => x._id == oldUrl)) := by
    unfold findByIdAndDelete; rw [hfo]
  have hru : updatePageUrl s oldUrl newPage newUrl d = .error .DuplicateKey := by
    unfold updatePageUrl
    rw [hdel]
    simp [hcd]
  exact ⟨hru, by simp [hru, storeAfter], by simp [hru, storeAfter]; exact ho,
    by simp [hru, storeAfter]; exact hn⟩

/-- C2 (amended): for a store with unique keys holding a record at
`oldUrl`, no record at `newUrl`, with `newUrl` and the new title
nonempty, `updatePageUrl` (spec: `renameKey`) succeeds, returns the new
record, and afterwards `oldUrl` is absent while `newUrl` holds exactly
the new record. -/
theorem C2_rename_success (s : Store) (oldUrl newUrl newPage : String)
    (d : Option String) (r : IPage)
    (hu : UniqueKeys s)
    (ho : getPageById s oldUrl = some r)
    (hn : getPageById s newUrl = none)
    (hk : newUrl ≠ "")
    (hp : newPage ≠ "") :
    updatePageUrl s oldUrl newPage newUrl d =
      .ok (⟨newUrl, newPage, d⟩,
        s.eraseP (fun x => x._id == oldUrl) ++ [⟨newUrl, newPage, d⟩]) ∧
    getPageById (storeAfter s (updatePageUrl s oldUrl newPage newUrl d)) oldUrl = none ∧
    getPageById (storeAfter s (updatePageUrl s oldUrl newPage newUrl d)) newUrl
      = some ⟨newUrl, newPage, d⟩ := by
  have hfo : findById s oldUrl = some r := ho
  have hfn : findById s newUrl = none := hn
  have hne : newUrl ≠ oldUrl := by
    intro e; rw [e, hfo] at hfn; cases hfn
  have h1 : findById (s.eraseP (fun x => x._id == oldUrl)) newUrl = none := by
    rw [findById_eraseP_ne s oldUrl newUrl hne]; exact hfn
  have hcd : createDoc (s.eraseP (fun x => x._id == oldUrl)) ⟨newUrl, newPage, d⟩
      = .ok (s.eraseP (fun x => x._id == oldUrl) ++ [⟨newUrl, newPage, d⟩]) := by
    unfold createDoc
    rw [if_neg (by simp [hk, hp]), if_neg (by rw [h1]; simp)]
  have hdel : findByIdAndDelete s oldUrl = (some r, s.eraseP (fun x => x._id == oldUrl)) := by
    unfold findByIdAndDelete; rw [hfo]
  have hru : updatePageUrl s oldUrl newPage newUrl d =
      .ok (⟨newUrl, newPage, d⟩,
        s.eraseP (fun x => x._id == oldUrl) ++ [⟨newUrl, newPage, d⟩]) := by
    unfold updatePageUrl
    rw [hdel]
    simp [hcd]
  refine ⟨hru, ?_, ?_⟩
  · rw [hru]
    simp only [storeAfter, getPageById, findById, List.find?_append]
    rw [show (s.eraseP (fun x => x._id == oldUrl)).find? (fun x => x._id == oldUrl)
        = none from findById_eraseP_self s oldUrl hu]
    simp [List.find?_cons, beq_eq_false_iff_ne.mpr hne]
  · rw [hru]
    simp only [storeAfter, getPageById, findById, List.find?_append]
    rw [show (s.eraseP (fun x => x._id == oldUrl)).find? (fun x => x._id == newUrl)
        = none from h1]
    simp [List.find?_cons]

/-- C10 (amended): renaming a record to its own key with a nonempty new
title succeeds as a full in-place update: the transactional delete frees
the key before the insert, so no `DuplicateKey` arises, and afterwards
the key holds exactly the new record. -/
theorem C10_rename_same_key (s : Store) (k newPage : String) (d : Option String) (r : IPage)
    (hu : UniqueKeys s) (hv : ValidStore s)
    (ho : getPageById s k = some r)
    (hp : newPage ≠ "") :
    updatePageUrl s k newPage k d =
      .ok (⟨k, newPage, d⟩, s.eraseP (fun x => x._id == k) ++ [⟨k, newPage, d⟩]) ∧
    getPageById (storeAfter s (updatePageUrl s k newPage k d)) k = some ⟨k, newPage, d⟩ := by
  have hfo : findById s k = some r := ho
  obtain ⟨hrid, hrmem⟩ := findById_eq_some hfo
  have hk : k ≠ "" := by rw [← hrid]; exact (hv r hrmem).1
  have h1 : findById (s.eraseP (fun x => x._id == k)) k = none :=
    findById_eraseP_self s k hu
  have hcd : createDoc (s.eraseP (fun x => x._id == k)) ⟨k, newPage, d⟩
      = .ok (s.eraseP (fun x => x._id == k) ++ [⟨k, newPage, d⟩]) := by
    unfold createDoc
    rw [if_neg (by simp [hk, hp]), if_neg (by rw [h1]; simp)]
  have hdel : findByIdAndDelete s k = (some r, s.eraseP (fun x => x._id == k)) := by
    unfold findByIdAndDelete; rw [hfo]
  have hru : updatePageUrl s k newPage k d =
      .ok (⟨k, newPage, d⟩, s.eraseP (fun x => x._id == k) ++ [⟨k, newPage, d⟩]) := by
    unfold updatePageUrl
    rw [hdel]
    simp [hcd]
  refine ⟨hru, ?_⟩
  rw [hru]
  simp only [storeAfter, getPageById, findById, List.find?_append]
  rw [show (s.eraseP (fun x => x._id == k)).find? (fun x => x._id == k) = none from h1]
  simp [List.find?_cons]


/-- Witness for the amended C1 at a concrete input. -/
theorem C1_witness :
    updatePageUrl [⟨"a", "t1", none⟩, ⟨"b", "t2", none⟩] "a" "t3" "b" none
      = .error .DuplicateKey ∧
    storeAfter [⟨"a", "t1", none⟩, ⟨"b", "t2", none⟩]
      (updatePageUrl [⟨"a", "t1", none⟩, ⟨"b", "t2", none⟩] "a" "t3" "b" none)
      = [⟨"a", "t1", none⟩, ⟨"b", "t2", none⟩] := by
  obtain ⟨h1, h2, _⟩ := C1_rename_conflict_rollback
    [⟨"a", "t1", none⟩, ⟨"b", "t2", none⟩] "a" "b" "t3" none
    ⟨"a", "t1", none⟩ ⟨"b", "t2", none⟩
    (by decide) (by decide) (by decide) (by decide) (by decide)
  exact ⟨h1, h2⟩

/-- C1 counterexample: with both keys occupied but an empty new title,
the rename fails with `InvalidInput` (mongoose schema validation runs
before the insert is attempted), not `DuplicateKey` as the claim
states. The store is still unchanged. -/
theorem C1_cx :
    getPageById [⟨"a", "t1", none⟩, ⟨"b", "t2", none⟩] "a" = some ⟨"a", "t1", none⟩ ∧
    getPageById [⟨"a", "t1", none⟩, ⟨"b", "t2", none⟩] "b" = some ⟨"b", "t2", none⟩ ∧
    updatePageUrl [⟨"a", "t1", none⟩, ⟨"b", "t2", none⟩] "a" "" "b" none
      = .error .InvalidInput ∧
    updatePageUrl [⟨"a", "t1", none⟩, ⟨"b", "t2", none⟩] "a" "" "b" none
      ≠ .error .DuplicateKey :=
  ⟨by decide, by decide, by decide, by decide⟩

/-- Witness for the amended C2 at a concrete input. -/
theorem C2_witness :
    updatePageUrl [⟨"a", "t1", none⟩] "a" "t3" "c" none
      = .ok (⟨"c", "t3", none⟩, [⟨"c", "t3", none⟩]) ∧
    getPageById (storeAfter [⟨"a", "t1", none⟩]
      (updatePageUrl [⟨"a", "t1", none⟩] "a" "t3" "c" none)) "a" = none ∧
    getPageById (storeAfter [⟨"a", "t1", none⟩]
      (updatePageUrl [⟨"a", "t1", none⟩] "a" "t3" "c" none)) "c"
      = some ⟨"c", "t3", none⟩ :=
  C2_rename_success [⟨"a", "t1", none⟩] "a" "c" "t3" none ⟨"a", "t1", none⟩
    (by decide) (by decide) (by decide) (by decide) (by decide)

/-- C2 counterexample: the claim quantifies over every store containing
a record at `oldKey`, but when `newKey` is already occupied by another
record the rename fails with `DuplicateKey` and `oldKey` is still
present afterwards, contradicting the claimed success. -/
theorem C2_cx :
    getPageById [⟨"a", "t1", none⟩, ⟨"b", "t2", none⟩] "a" = some ⟨"a", "t1", none⟩ ∧
    updatePageUrl [⟨"a", "t1", none⟩, ⟨"b", "t2", none⟩] "a" "t3" "b" (some "z")
      = .error .DuplicateKey ∧
    getPageById (storeAfter [⟨"a", "t1", none⟩, ⟨"b", "t2", none⟩]
      (updatePageUrl [⟨"a", "t1", none⟩, ⟨"b", "t2", none⟩] "a" "t3" "b" (some "z"))) "a"
      ≠ none :=
  ⟨by decide, by decide, by decide⟩

/-- Witness for the amended C10 at a concrete input. -/
theorem C10_witness :
    updatePageUrl [⟨"k", "old", none⟩] "k" "new" "k" (some "d")
      = .ok (⟨"k", "new", some "d"⟩, [⟨"k", "new", some "d"⟩]) ∧
    getPageById (storeAfter [⟨"k", "old", none⟩]
      (updatePageUrl [⟨"k", "old", none⟩] "k" "new" "k" (some "d"))) "k"
      = some ⟨"k", "new", some "d"⟩ :=
  C10_rename_same_key [⟨"k", "old", none⟩] "k" "new" (some "d") ⟨"k", "old", none⟩
    (by decide) (by decide) (by decide) (by decide)

/-- C10 counterexample: with an empty new title the same-key rename does
not behave as an update — the insert half fails schema validation
(`InvalidInput`), the transaction is rolled back, and the key still
holds the original record rather than the new one. -/
theorem C10_cx :
    getPageById [⟨"k", "old", none⟩] "k" = some ⟨"k", "old", none⟩ ∧
    updatePageUrl [⟨"k", "old", none⟩] "k" "" "k" none = .error .InvalidInput ∧
    getPageById (storeAfter [⟨"k", "old", none⟩]
      (updatePageUrl [⟨"k", "old", none⟩] "k" "" "k" none)) "k"
      ≠ some ⟨"k", "", none⟩ :=
  ⟨by decide, by decide, by decide⟩


/-- C6 (amended): inserting at an occupied key `k` (with `k` and the new
title nonempty) fails with `DuplicateKey`, and the record created by the
first insert is unchanged. -/
theorem C6_insert_duplicate (s : Store) (k title : String) (d : Option String) (r : IPage)
    (ho : getPageById s k = some r)
    (hk : k ≠ "") (ht : title ≠ "") :
    createPage s title k d = .error .DuplicateKey ∧
    storeAfter s (createPage s title k d) = s ∧
    getPageById (storeAfter s (createPage s title k d)) k = some r := by
  have hcd : createDoc s ⟨k, title, d⟩ = .error .DuplicateKey := by
    unfold createDoc
    rw [if_neg (by simp [hk, ht]),
      if_pos (by rw [show findById s k = some r from ho]; rfl)]
  have hc : createPage s title k d = .error .DuplicateKey := by
    unfold createPage
    rw [hcd]
  exact ⟨hc, by simp [hc, storeAfter], by simp [hc, storeAfter]; exact ho⟩

/-- Witness for the amended C6 at a concrete input. -/
theorem C6_witness :
    createPage [⟨"k", "t1", none⟩] "t2" "k" none = .error .DuplicateKey ∧
    storeAfter [⟨"k", "t1", none⟩] (createPage [⟨"k", "t1", none⟩] "t2" "k" none)
      = [⟨"k", "t1", none⟩] ∧
    getPageById (storeAfter [⟨"k", "t1", none⟩]
      (createPage [⟨"k", "t1", none⟩] "t2" "k" none)) "k" = some ⟨"k", "t1", none⟩ :=
  C6_insert_duplicate [⟨"k", "t1", none⟩] "k" "t2" none ⟨"k", "t1", none⟩
    (by decide) (by decide) (by decide)

/-- C6 counterexample: a second insert at an occupied key with an empty
title fails with `InvalidInput` (schema validation precedes the write),
not `DuplicateKey` as the claim states for every title. -/
theorem C6_cx :
    getPageById [⟨"k", "t1", none⟩] "k" = some ⟨"k", "t1", none⟩ ∧
    createPage [⟨"k", "t1", none⟩] "" "k" none = .error .InvalidInput ∧
    createPage [⟨"k", "t1", none⟩] "" "k" none ≠ .error .DuplicateKey :=
  ⟨by decide, by decide, by decide⟩

/-- C8: `updatePage` (spec: `update`) never changes any record's key
(the multiset of keys is untouched), never changes a record stored
under another key, and on a miss returns `absent` leaving the store
completely unchanged. -/
theorem C8_update_frame (s : Store) (pageId page : String) (d : Option String) :
    storeKeys (updatePage s pageId page d).2 = storeKeys s ∧
    (∀ k', k' ≠ pageId → getPageById (updatePage s pageId page d).2 k' = getPageById s k') ∧
    (getPageById s pageId = none → updatePage s pageId page d = (none, s)) := by
  unfold updatePage findByIdAndUpdate
  cases h : findById s pageId with
  | none => exact ⟨rfl, fun _ _ => rfl, fun _ => rfl⟩
  | some r =>
    refine ⟨storeKeys_replaceById s pageId ⟨pageId, page, d⟩ rfl, ?_, ?_⟩
    · intro k' hk'
      exact findById_replaceById_ne s pageId k' ⟨pageId, page, d⟩ rfl hk'
    · intro hmiss
      rw [show getPageById s pageId = findById s pageId from rfl, h] at hmiss
      cases hmiss

/-- Witness for C8 at a concrete input. -/
theorem C8_witness :
    storeKeys (updatePage [⟨"k", "t", none⟩] "x" "ttl" none).2
      = storeKeys [⟨"k", "t", none⟩] ∧
    getPageById (updatePage [⟨"k", "t", none⟩] "x" "ttl" none).2 "k"
      = getPageById [⟨"k", "t", none⟩] "k" ∧
    updatePage [⟨"k", "t", none⟩] "x" "ttl" none = (none, [⟨"k", "t", none⟩]) := by
  obtain ⟨h1, h2, h3⟩ := C8_update_frame [⟨"k", "t", none⟩] "x" "ttl" none
  exact ⟨h1, h2 "k" (by decide), h3 (by decide)⟩


theorem not_mem_storeKeys_of_findById_none {s : Store} {k : String}
    (h : findById s k = none) : k ∉ storeKeys s := by
  rw [show findById s k = s.find? (fun r => r._id == k) from rfl,
    List.find?_eq_none] at h
  intro hm
  obtain ⟨r, hr, hrk⟩ := List.mem_map.mp hm
  exact h r hr (by simp [hrk])

theorem uniqueKeys_createDoc {s s' : Store} {r : IPage} (h : UniqueKeys s)
    (hc : createDoc s r = .ok s') : UniqueKeys s' := by
  unfold createDoc at hc
  by_cases h1 : r._id = "" ∨ r.page = ""
  · rw [if_pos h1] at hc; cases hc
  · rw [if_neg h1] at hc
    by_cases h2 : (findById s r._id).isSome
    · rw [if_pos h2] at hc; cases hc
    · rw [if_neg h2] at hc
      have hnone : findById s r._id = none := Option.not_isSome_iff_eq_none.mp h2
      cases hc
      simp only [UniqueKeys, storeKeys, List.map_append, List.map_cons, List.map_nil]
      rw [List.nodup_append]
      refine ⟨h, List.nodup_singleton _, ?_⟩
      intro a ha hb
      rw [List.mem_singleton] at hb
      exact not_mem_storeKeys_of_findById_none hnone (hb ▸ ha)

theorem uniqueKeys_eraseP (s : Store) (k : String) (h : UniqueKeys s) :
    UniqueKeys (s.eraseP (fun x => x._id == k)) := by
  unfold UniqueKeys storeKeys at h ⊢
  exact List.Nodup.sublist ((List.eraseP_sublist s).map (fun r => r._id)) h

/-- C9: key uniqueness is an invariant. Starting from a store with at
most one record per key, every operation — `getAll`, `createPage`,
`updatePage`, `deletePage`, `updatePageUrl` — leaves the observable
store with at most one record per key, whether it succeeds or fails
(`getPageById` performs no write at all). -/
theorem C9_unique_keys_invariant (s : Store) (h : UniqueKeys s)
    (k page url oldUrl newUrl : String) (d d' : Option String) :
    UniqueKeys (getAll s) ∧
    UniqueKeys (storeAfter s (createPage s page url d)) ∧
    UniqueKeys (updatePage s k page d).2 ∧
    UniqueKeys (deletePage s k).2 ∧
    UniqueKeys (storeAfter s (updatePageUrl s oldUrl page newUrl d')) := by
  refine ⟨h, ?_, ?_, ?_, ?_⟩
  · unfold createPage
    cases hc : createDoc s ⟨url, page, d⟩ with
    | error e => simp [storeAfter, h]
    | ok s' => simpa [storeAfter] using uniqueKeys_createDoc h hc
  · have := C8_update_frame s k page d
    unfold UniqueKeys
    rw [this.1]
    exact h
  · unfold deletePage findByIdAndDelete
    cases hf : findById s k with
    | none => exact h
    | some r => exact uniqueKeys_eraseP s k h
  · cases hf : findById s oldUrl with
    | none =>
      have hdel : findByIdAndDelete s oldUrl = (none, s) := by
        unfold findByIdAndDelete; rw [hf]
      unfold updatePageUrl
      rw [hdel]
      exact h
    | some r =>
      have hdel : findByIdAndDelete s oldUrl
          = (some r, s.eraseP (fun x => x._id == oldUrl)) := by
        unfold findByIdAndDelete; rw [hf]
      unfold updatePageUrl
      rw [hdel]
      cases hc : createDoc (s.eraseP (fun x => x._id == oldUrl)) ⟨newUrl, page, d'⟩ with
      | error e => simpa [hc, storeAfter] using h
      | ok s2 =>
        simpa [hc, storeAfter] using
          uniqueKeys_createDoc (uniqueKeys_eraseP s oldUrl h) hc


/-- Witness for C9 at a concrete input. -/
theorem C9_witness :
    UniqueKeys (getAll [⟨"a", "t", none⟩]) ∧
    UniqueKeys (storeAfter [⟨"a", "t", none⟩]
      (createPage [⟨"a", "t", none⟩] "p" "u" none)) ∧
    UniqueKeys (updatePage [⟨"a", "t", none⟩] "a" "p" none).2 ∧
    UniqueKeys (deletePage [⟨"a", "t", none⟩] "a").2 ∧
    UniqueKeys (storeAfter [⟨"a", "t", none⟩]
      (updatePageUrl [⟨"a", "t", none⟩] "a" "p" "b" none)) :=
  C9_unique_keys_invariant [⟨"a", "t", none⟩] (by decide) "a" "p" "u" "a" "b" none none


end Vella
